import Mathlib

/-!
Verification of the competency-matrix service (`src/main.py`, `src/schemas.py`).

The service stores three collections of documents (matrix entries, standard
records, definition entries) and exposes an ingest endpoint that normalizes
loosely-shaped JSON into those collections, plus a query endpoint that joins
them into per-title/per-level competency rows.

We embed the JSON data model and the exact Python semantics the handlers rely
on (truthiness, `or`-chains, `dict.get`, `str()`, `str.lower()`, `str.title()`,
`str.split()`/`join`/`strip`, iteration, and the `AttributeError`/`TypeError`
failure modes of those operations on unexpected shapes).  Unicode-specific
behaviour of `str.lower`/`str.title`/`isalpha` is modelled on the ASCII
fragment, which is the fragment exercised by this service's data.
-/

namespace CompetencyMatrix

/-- JSON values, as parsed by the web framework into Python objects.
Numbers are modelled as integers (the service never does arithmetic and all
data exercised is integral); object fields keep their textual order, matching
Python dict insertion order after `json` parsing. -/
inductive Json where
  | null : Json
  | bool : Bool → Json
  | num : Int → Json
  | str : String → Json
  | arr : List Json → Json
  | obj : List (String × Json) → Json

mutual
/-- Structural equality of JSON values (Python `==` on the parsed data;
Python's numeric cross-type equalities such as `True == 1` are not modelled,
as the service never mixes key types). -/
def Json.beq : Json → Json → Bool
  | .null, .null => true
  | .bool a, .bool b => a == b
  | .num a, .num b => a == b
  | .str a, .str b => a == b
  | .arr a, .arr b => Json.beqList a b
  | .obj a, .obj b => Json.beqObj a b
  | _, _ => false

/-- Elementwise equality of JSON lists. -/
def Json.beqList : List Json → List Json → Bool
  | [], [] => true
  | a :: as, b :: bs => Json.beq a b && Json.beqList as bs
  | _, _ => false

/-- Itemwise equality of JSON objects. -/
def Json.beqObj : List (String × Json) → List (String × Json) → Bool
  | [], [] => true
  | (k₁, v₁) :: as, (k₂, v₂) :: bs => k₁ == k₂ && Json.beq v₁ v₂ && Json.beqObj as bs
  | _, _ => false
end

instance : BEq Json := ⟨Json.beq⟩

/-- Whether a value is Python `None` (a JSON `null`). -/
def Json.isNull : Json → Bool
  | .null => true
  | _ => false

/-- Whether a value is a Python dict (`isinstance(x, dict)`). -/
def Json.isObj : Json → Bool
  | .obj _ => true
  | _ => false

/-- Whether a value is a Python list (`isinstance(x, list)`). -/
def Json.isArr : Json → Bool
  | .arr _ => true
  | _ => false

/-- Python exceptions that the handler code can raise on unexpected shapes. -/
inductive PyError where
  | attributeError : PyError
  | typeError : PyError
deriving DecidableEq

/-- Python truthiness of a JSON-derived value (`bool(x)`):
`None`, `False`, `0`, `""`, `[]`, `{}` are falsy. -/
def pyTruthy : Json → Bool
  | .null => false
  | .bool b => b
  | .num n => n != 0
  | .str s => s != ""
  | .arr xs => !xs.isEmpty
  | .obj kvs => !kvs.isEmpty

/-- Python `a or b` on JSON-derived values. -/
def pyOr (a b : Json) : Json := if pyTruthy a then a else b

/-- Lookup of a string key in a JSON object's field list.  Python dicts built
by `json` parsing keep the last occurrence of a duplicated key, so lookup
takes the last matching field. -/
def jLookup (kvs : List (String × Json)) (k : String) : Option Json :=
  (kvs.reverse.find? (fun p => p.1 = k)).map (fun p => p.2)

/-- Python `d.get(k)` on a JSON object: `None` when the key is absent. -/
def dGet (kvs : List (String × Json)) (k : String) : Json :=
  (jLookup kvs k).getD .null

/-- Python whitespace for `str.split()` / `str.strip()` (ASCII fragment). -/
def pyIsSpace (c : Char) : Bool :=
  c = ' ' || c = '\t' || c = '\n' || c = '\r' || c = '\x0b' || c = '\x0c'

/-- The scanning loop behind Python `str.split()` (no separator): `acc` holds
the characters of the word in progress, most recent first. -/
def splitWordsAux : List Char → List Char → List (List Char)
  | [], acc => if acc.isEmpty then [] else [acc.reverse]
  | c :: cs, acc =>
    if pyIsSpace c then
      if acc.isEmpty then splitWordsAux cs []
      else acc.reverse :: splitWordsAux cs []
    else splitWordsAux cs (c :: acc)

/-- Python `str.split()` (no separator): maximal runs of non-whitespace. -/
def splitWords (l : List Char) : List (List Char) := splitWordsAux l []

/-- `" ".join(words)` on character lists. -/
def joinWords : List (List Char) → List Char
  | [] => []
  | [w] => w
  | w :: ws => w ++ ' ' :: joinWords ws

/-- Python `str.strip()` (ASCII whitespace fragment). -/
def pyStrip (l : List Char) : List Char :=
  ((l.dropWhile pyIsSpace).reverse.dropWhile pyIsSpace).reverse

/-- `src/main.py:84-85` — `" ".join(title.split()).strip()`. -/
def _normalize_title (title : String) : String :=
  ⟨pyStrip (joinWords (splitWords title.data))⟩

/-- Python `str.lower()` (ASCII fragment). -/
def pyLower (s : String) : String := ⟨s.data.map Char.toLower⟩

/-- `s.replace("_", " ")`. -/
def replaceUnderscores (s : String) : String :=
  ⟨s.data.map (fun c => if c = '_' then ' ' else c)⟩

/-- Python `str.title()` (ASCII fragment): a letter after a non-letter is
uppercased, a letter after a letter is lowercased, others are unchanged. -/
def pyTitleAux : List Char → Bool → List Char
  | [], _ => []
  | c :: cs, prevCased =>
    if c.isAlpha then
      (if prevCased then c.toLower else c.toUpper) :: pyTitleAux cs true
    else
      c :: pyTitleAux cs false

/-- Python `str.title()` on a string. -/
def pyTitle (s : String) : String := ⟨pyTitleAux s.data false⟩

mutual
/-- Python `str(x)` of a JSON-derived value.  Scalar cases are exact; list
and dict renderings follow `repr` without modelling quote escaping (never
exercised: the service only stringifies levels and standard values, which are
scalars in all reachable data of interest). -/
def pyStr : Json → String
  | .null => "None"
  | .bool true => "True"
  | .bool false => "False"
  | .num n => toString n
  | .str s => s
  | .arr xs => "[" ++ pyReprList xs ++ "]"
  | .obj kvs => "\x7b" ++ pyReprObj kvs ++ "\x7d"

/-- Python `repr(x)` used when rendering containers (a single quote is
written as its escape `\x27`). -/
def pyRepr : Json → String
  | .str s => "\x27" ++ s ++ "\x27"
  | .null => "None"
  | .bool true => "True"
  | .bool false => "False"
  | .num n => toString n
  | .arr xs => "[" ++ pyReprList xs ++ "]"
  | .obj kvs => "\x7b" ++ pyReprObj kvs ++ "\x7d"

/-- Comma-joined reprs of list elements. -/
def pyReprList : List Json → String
  | [] => ""
  | [x] => pyRepr x
  | x :: xs => pyRepr x ++ ", " ++ pyReprList xs

/-- Comma-joined reprs of dict items. -/
def pyReprObj : List (String × Json) → String
  | [] => ""
  | [(k, v)] => "\x27" ++ k ++ "\x27: " ++ pyRepr v
  | (k, v) :: kvs => "\x27" ++ k ++ "\x27: " ++ pyRepr v ++ ", " ++ pyReprObj kvs
end

/-- Python `for x in j`: lists yield elements, strings yield one-character
strings, dicts yield their keys; other values raise `TypeError`. -/
def pyIterate : Json → Except PyError (List Json)
  | .arr xs => .ok xs
  | .str s => .ok (s.data.map (fun c => .str ⟨[c]⟩))
  | .obj kvs => .ok (kvs.map (fun p => .str p.1))
  | _ => .error .typeError

/-- Python `m.get(k)` where `m` is an arbitrary value and `k` a JSON-derived
key: `AttributeError` when `m` is not a dict, `TypeError` when `k` is
unhashable (a list or dict); a stored JSON `null` and an absent key are both
Python `None`, so both come back as `Json.null`. -/
def pyGet (m k : Json) : Except PyError Json :=
  match m with
  | .obj kvs =>
    match k with
    | .arr _ => .error .typeError
    | .obj _ => .error .typeError
    | .str s => .ok (dGet kvs s)
    | _ => .ok .null
  | _ => .error .attributeError

/-! ## The document store

Three collections (`src/main.py:73-75`), each a list of documents in
insertion order; `find_one` returns the first matching document and `find`
scans in insertion order, matching the driver's natural-order behaviour for
these unindexed collections. -/

/-- A document of the `competencymatrixentry` collection
(`src/main.py:106-108,115`): a normalized `job_title` and the raw
`competencies` value stored with it. -/
structure MatrixEntry where
  job_title : String
  competencies : Json

/-- A document of the `competencystandard` collection
(`src/main.py:122-126,129-133`). -/
structure StandardRecord where
  job_title : String
  level : String
  standards : Json

/-- A document of the `competencydefinition` collection
(`src/main.py:139-145,151-156`); absent fields are stored as Python `None`,
i.e. `Json.null`. -/
structure DefinitionEntry where
  key : Json
  label : Json
  description : Json
  values : Json

/-- The three collections of the document store. -/
structure Store where
  matrix : List MatrixEntry
  standards : List StandardRecord
  defs : List DefinitionEntry

/-- The store after `_clear_collections` (`src/main.py:78-81`). -/
def Store.empty : Store := ⟨[], [], []⟩

/-! ## Ingest (`src/main.py:89-158`)

Each normalization phase is embedded as a function from the raw payload field
to the list of documents the loop inserts, plus the Python exception that
aborts the loop, if any (documents produced before the exception were already
inserted when it was raised). -/

/-- `_normalize_title` applied to an arbitrary Python value: `title.split()`
raises `AttributeError` unless the value is a string
(`src/main.py:84-85,112,130`). -/
def normalizeTitleValue : Json → Except PyError String
  | .str s => .ok (_normalize_title s)
  | _ => .error .attributeError

/-- The loop over a sequence-shaped matrix (`src/main.py:110-115`): one
entry per element object whose normalized `job_title`/`title` is non-empty,
with competencies from `competencies`/`skills`/`[]`; a non-object element
raises `AttributeError` (entries before it were already inserted). -/
def matrixDocsList : List Json → List MatrixEntry × Option PyError
  | [] => ([], none)
  | .obj kvs :: rest =>
    match normalizeTitleValue (pyOr (dGet kvs "job_title") (pyOr (dGet kvs "title") (.str ""))) with
    | .error e => ([], some e)
    | .ok title =>
      let comps := pyOr (dGet kvs "competencies") (pyOr (dGet kvs "skills") (.arr []))
      let (docs, err) := matrixDocsList rest
      if title ≠ "" then (⟨title, comps⟩ :: docs, err) else (docs, err)
  | _ :: _ => ([], some .attributeError)

/-- The matrix phase (`src/main.py:104-115`).  A mapping emits one entry per
key with the value kept when it is a list and replaced by `[]` otherwise; a
sequence is handled by the element loop; any other shape of the whole field
is silently ignored. -/
def matrixDocs : Json → List MatrixEntry × Option PyError
  | .obj kvs =>
    (kvs.map (fun p =>
      ⟨_normalize_title p.1,
       match p.2 with
       | .arr xs => .arr xs
       | _ => .arr []⟩), none)
  | .arr entries => matrixDocsList entries
  | _ => ([], none)

/-- The loop over a mapping-shaped standards field (`src/main.py:120-126`):
one record per level of each title's inner mapping; a falsy inner value
emits nothing, a truthy non-object inner value raises `AttributeError` from
`.items()`. -/
def standardsDocsObj : List (String × Json) → List StandardRecord × Option PyError
  | [] => ([], none)
  | (title, lvlObj) :: rest =>
    match pyOr lvlObj (.obj []) with
    | .obj lvls =>
      let docs := lvls.map (fun q =>
        ⟨_normalize_title title, q.1, pyOr q.2 (.obj [])⟩)
      let (docs', err) := standardsDocsObj rest
      (docs ++ docs', err)
    | _ => ([], some .attributeError)

/-- The loop over a sequence-shaped standards field (`src/main.py:127-133`):
one record per element object; a non-object element raises
`AttributeError`. -/
def standardsDocsList : List Json → List StandardRecord × Option PyError
  | [] => ([], none)
  | .obj kvs :: rest =>
    match normalizeTitleValue (pyOr (dGet kvs "job_title") (pyOr (dGet kvs "title") (.str ""))) with
    | .error e => ([], some e)
    | .ok title =>
      let level := pyStr (pyOr (dGet kvs "level") (.str ""))
      let standards := pyOr (dGet kvs "standards") (pyOr (dGet kvs "mapping") (.obj []))
      let (docs, err) := standardsDocsList rest
      (⟨title, level, standards⟩ :: docs, err)
  | _ :: _ => ([], some .attributeError)

/-- The standards phase (`src/main.py:119-133`), dispatching on the shape of
the field; shapes other than mapping or sequence are silently ignored. -/
def standardsDocs : Json → List StandardRecord × Option PyError
  | .obj kvs => standardsDocsObj kvs
  | .arr items => standardsDocsList items
  | _ => ([], none)

/-- The loop over a sequence-shaped definitions field
(`src/main.py:146-156`): one entry per element object with a truthy
`key`/`id`, skipping keyless objects; a non-object element raises
`AttributeError`. -/
def definitionsDocsList : List Json → List DefinitionEntry × Option PyError
  | [] => ([], none)
  | .obj kvs :: rest =>
    let key := pyOr (dGet kvs "key") (dGet kvs "id")
    let (docs, err) := definitionsDocsList rest
    if pyTruthy key then
      (⟨key, dGet kvs "label", dGet kvs "description",
        pyOr (dGet kvs "values") (pyOr (dGet kvs "levels") (.obj []))⟩ :: docs, err)
    else (docs, err)
  | _ :: _ => ([], some .attributeError)

/-- The definitions phase (`src/main.py:137-156`).  A mapping emits one entry
per key, pulling `label`/`description`/`values` when the value is an object;
a sequence is handled by the element loop; other shapes are silently
ignored. -/
def definitionsDocs : Json → List DefinitionEntry × Option PyError
  | .obj kvs =>
    (kvs.map (fun p =>
      match p.2 with
      | .obj vkvs =>
        ⟨.str p.1, dGet vkvs "label", dGet vkvs "description", dGet vkvs "values"⟩
      | _ => ⟨.str p.1, .null, .null, .obj []⟩), none)
  | .arr items => definitionsDocsList items
  | _ => ([], none)

/-- The documents a single ingest request inserts, across the three phases in
order; an exception in one phase prevents the later phases from running. -/
structure NewDocs where
  matrix : List MatrixEntry
  standards : List StandardRecord
  defs : List DefinitionEntry
  err : Option PyError

/-- All insertions of one ingest request (`src/main.py:102-156`). -/
def ingestDocs (matrix standards definitions : Json) : NewDocs :=
  let (dm, e1) := matrixDocs matrix
  match e1 with
  | some e => ⟨dm, [], [], some e⟩
  | none =>
    let (ds, e2) := standardsDocs standards
    match e2 with
    | some e => ⟨dm, ds, [], some e⟩
    | none =>
      let (dd, e3) := definitionsDocs definitions
      ⟨dm, ds, dd, e3⟩

/-- The HTTP outcome of an ingest request: `{"status": "ok"}`, a 500 from the
explicit store-unavailable check, or a 500 from an escaped Python exception. -/
inductive IngestOutcome where
  | ok : IngestOutcome
  | serviceUnavailable : IngestOutcome
  | internalError : PyError → IngestOutcome
deriving DecidableEq

/-- The ingest endpoint (`src/main.py:89-158`): the store handle after the
request together with the HTTP outcome.  When the handle is unset the request
fails before touching any collection; otherwise the collections are cleared
when `replace` is set, then each phase appends its documents. -/
def ingest (db : Option Store) (matrix standards definitions : Json)
    (replace : Bool) : Option Store × IngestOutcome :=
  match db with
  | none => (none, .serviceUnavailable)
  | some s =>
    let s0 := if replace then Store.empty else s
    let nd := ingestDocs matrix standards definitions
    (some ⟨s0.matrix ++ nd.matrix, s0.standards ++ nd.standards, s0.defs ++ nd.defs⟩,
     match nd.err with
     | none => .ok
     | some e => .internalError e)

/-! ## Query (`src/main.py:185-238`) -/

/-- One output row of the competencies query (`src/main.py:230-236`);
`Json.null` stands for Python `None` in any field. -/
structure Row where
  key : Json
  label : Json
  standard : Json
  definition : Json
  standard_definition : Json

/-- The body of a successful competencies response (`src/main.py:238`):
the normalized title, the level exactly as supplied, and the rows. -/
structure QueryResult where
  title : String
  level : Option String
  items : List Row

/-- The HTTP failures of the competencies query: 500 when the store handle is
unset, 404 when the title has no matrix entry, 500 when a Python exception
escapes the handler. -/
inductive QueryError where
  | serviceUnavailable : QueryError
  | notFound : QueryError
  | pyErr : PyError → QueryError
deriving DecidableEq

/-- The per-definition value kept in `defs_map` (`src/main.py:206-210`). -/
structure DefInfo where
  label : Json
  description : Json
  values : Json

/-- `defs_map` (`src/main.py:204-210`): scanning all definition documents in
order and assigning `defs_map[d.get("key")]`, so a later document with the
same key overwrites an earlier one. -/
def defsMapOf (ds : List DefinitionEntry) : List (Json × DefInfo) :=
  ds.map (fun d => (d.key, ⟨d.label, d.description, pyOr d.values (.obj [])⟩))

/-- `defs_map.get(key, {})`: dict lookup, where the last assignment to a key
wins. -/
def dmLookup (dm : List (Json × DefInfo)) (k : Json) : Option DefInfo :=
  (dm.reverse.find? (fun p => Json.beq p.1 k)).map (fun p => p.2)

/-- `level_mapping` (`src/main.py:197-201`): empty unless a truthy `level`
was supplied and a standards document matches `(title, level)`, in which case
it is that document's `standards` value (or `{}` when that value is falsy). -/
def levelMappingOf (s : Store) (t : String) (level : Option String) : Json :=
  match level with
  | none => .obj []
  | some l =>
    if l ≠ "" then
      match s.standards.find? (fun r => r.job_title = t && r.level = l) with
      | some r => pyOr r.standards (.obj [])
      | none => .obj []
    else .obj []

/-- `comp.get("label") or comp.get("name") or (key.replace("_", " ").title()
if key else None)` (`src/main.py:220`): the title-case fallback raises
`AttributeError` when the key is truthy but not a string. -/
def labelFor (kvs : List (String × Json)) (key : Json) : Except PyError Json :=
  if pyTruthy (dGet kvs "label") then .ok (dGet kvs "label")
  else if pyTruthy (dGet kvs "name") then .ok (dGet kvs "name")
  else if pyTruthy key then
    match key with
    | .str ks => .ok (.str (pyTitle (replaceUnderscores ks)))
    | _ => .error .attributeError
  else .ok .null

/-- The common tail of the loop body (`src/main.py:221-236`): drop falsy
keys, look up the standard value and the definition, and look up the
standard's text in the definition's `values` with the lowercased
stringified standard as key. -/
def finishRow (lm : Json) (dm : List (Json × DefInfo)) (key label : Json) :
    Except PyError (Option Row) :=
  if pyTruthy key then
    match pyGet lm key with
    | .error e => .error e
    | .ok standard =>
      let defn := dmLookup dm key
      let definition := match defn with
        | some i => i.description
        | none => .null
      if standard.isNull then
        .ok (some ⟨key, label, standard, definition, .null⟩)
      else
        let valuesMap := match defn with
          | some i => pyOr i.values (.obj [])
          | none => .obj []
        match pyGet valuesMap (.str (pyLower (pyStr standard))) with
        | .error e => .error e
        | .ok vd => .ok (some ⟨key, label, standard, definition, vd⟩)
  else .ok none

/-- Resolution of one competency reference into at most one row
(`src/main.py:213-236`); `none` means the reference was skipped with
`continue`, and any non-string non-object reference raises `AttributeError`
from `.get`. -/
def resolveComp (lm : Json) (dm : List (Json × DefInfo)) (comp : Json) :
    Except PyError (Option Row) :=
  match comp with
  | .str s =>
    finishRow lm dm (.str s) (.str (pyTitle (replaceUnderscores s)))
  | .obj kvs =>
    let key := pyOr (dGet kvs "key") (pyOr (dGet kvs "id") (dGet kvs "name"))
    match labelFor kvs key with
    | .error e => .error e
    | .ok label => finishRow lm dm key label
  | _ => .error .attributeError

/-- The row-building loop (`src/main.py:212-236`): rows are appended in
order, skipped references contribute nothing, and an exception aborts the
request. -/
def itemsOf (lm : Json) (dm : List (Json × DefInfo)) :
    List Json → Except PyError (List Row)
  | [] => .ok []
  | c :: cs =>
    match resolveComp lm dm c with
    | .error e => .error e
    | .ok r? =>
      match itemsOf lm dm cs with
      | .error e => .error e
      | .ok rest =>
        .ok (match r? with
          | some r => r :: rest
          | none => rest)

/-- The item-producing part of the competencies endpoint
(`src/main.py:192-236`), for an already-normalized title. -/
def queryItems (s : Store) (t : String) (level : Option String) :
    Except QueryError (List Row) :=
  match s.matrix.find? (fun e => e.job_title = t) with
  | none => .error .notFound
  | some me =>
    match pyIterate me.competencies with
    | .error e => .error (.pyErr e)
    | .ok cs =>
      match itemsOf (levelMappingOf s t level) (defsMapOf s.defs) cs with
      | .error e => .error (.pyErr e)
      | .ok items => .ok items

/-- The competencies endpoint (`src/main.py:185-238`). -/
def get_competencies (db : Option Store) (title : String)
    (level : Option String) : Except QueryError QueryResult :=
  match db with
  | none => .error .serviceUnavailable
  | some s =>
    match queryItems s (_normalize_title title) level with
    | .error e => .error e
    | .ok items => .ok ⟨_normalize_title title, level, items⟩

/-! ## Concrete payloads and stores used by several theorems -/

/-- The matrix payload of the spec's end-to-end scenario. -/
def devMatrix : Json := .obj [("Dev", .arr [.str "coaching"])]

/-- The standards payload of the spec's end-to-end scenario. -/
def devStandards : Json := .obj [("Dev", .obj [("Senior", .obj [("coaching", .str "advanced")])])]

/-- The definitions payload of the spec's end-to-end scenario. -/
def devDefinitions : Json :=
  .obj [("coaching", .obj [("label", .str "Coaching"), ("description", .str "Helps others"),
    ("values", .obj [("advanced", .str "Runs mentoring programs")])])]

/-- Store for the C4 counterexample: the stored standard value is
`"advanced"` while the definition's `values` key is `"Advanced"`. -/
def caseStoreA : Store :=
  ⟨[⟨"Dev", .arr [.str "coaching"]⟩],
   [⟨"Dev", "Senior", .obj [("coaching", .str "advanced")]⟩],
   [⟨.str "coaching", .null, .null, .obj [("Advanced", .str "Runs mentoring programs")]⟩]⟩

/-- Store for the C4 amended theorem: the stored standard value is
`"Advanced"` while the definition's `values` key is `"advanced"`. -/
def caseStoreB : Store :=
  ⟨[⟨"Dev", .arr [.str "coaching"]⟩],
   [⟨"Dev", "Senior", .obj [("coaching", .str "Advanced")]⟩],
   [⟨.str "coaching", .null, .null, .obj [("advanced", .str "Runs mentoring programs")]⟩]⟩

/-- Store whose one matrix entry carries a malformed (non-iterable)
competencies value; it is reachable by ingesting a sequence-shaped matrix
whose entry has `competencies: 5`. -/
def badCompsStore : Store := ⟨[⟨"Dev", .num 5⟩], [], []⟩

/-- Store with one matrix entry and one standard record for a level that the
C5 witness query does not request. -/
def witnessStore : Store :=
  ⟨[⟨"Dev", .arr [.str "coaching"]⟩],
   [⟨"Dev", "Senior", .obj [("coaching", .str "advanced")]⟩], []⟩

/-! ## Claim theorems -/

/-- C1.  End-to-end round trip: ingesting the scenario's matrix, standards
and definitions into an empty store succeeds, and the query for title `Dev`
at level `Senior` returns exactly the one expected item. -/
theorem ingest_then_query_round_trip :
    (ingest (some Store.empty) devMatrix devStandards devDefinitions true).2 = .ok ∧
    get_competencies (ingest (some Store.empty) devMatrix devStandards devDefinitions true).1
        "Dev" (some "Senior") =
      .ok ⟨"Dev", some "Senior",
        [⟨.str "coaching", .str "Coaching", .str "advanced", .str "Helps others",
          .str "Runs mentoring programs"⟩]⟩ :=
  ⟨rfl, rfl⟩

/-- C2.  Full-replace semantics: with `replace=true` the resulting store
holds exactly the documents produced from the new batch, independent of the
prior store; with `replace=false` nothing is deleted and each collection is
the prior records followed by the new batch's records.  The HTTP outcome is
the same in both modes. -/
theorem ingest_replace_semantics (s : Store) (m st d : Json) :
    ingest (some s) m st d true = ingest (some Store.empty) m st d true ∧
    (ingest (some Store.empty) m st d true).1 =
      some ⟨(ingestDocs m st d).matrix, (ingestDocs m st d).standards, (ingestDocs m st d).defs⟩ ∧
    (ingest (some s) m st d false).1 =
      some ⟨s.matrix ++ (ingestDocs m st d).matrix,
            s.standards ++ (ingestDocs m st d).standards,
            s.defs ++ (ingestDocs m st d).defs⟩ ∧
    (ingest (some s) m st d false).2 = (ingest (some s) m st d true).2 :=
  ⟨rfl, rfl, rfl, rfl⟩

/-- C3.  Matrix shape equivalence: the mapping shape
`{"Engineer": ["coaching"]}` and the sequence shape
`[{"job_title": "Engineer", "competencies": ["coaching"]}]` make any ingest
behave identically, and both produce exactly one MatrixEntry with job title
`Engineer` and competencies `["coaching"]`. -/
theorem matrix_shape_equivalence :
    (∀ (db : Option Store) (st d : Json) (replace : Bool),
      ingest db (.obj [("Engineer", .arr [.str "coaching"])]) st d replace =
        ingest db (.arr [.obj [("job_title", .str "Engineer"),
          ("competencies", .arr [.str "coaching"])]]) st d replace) ∧
    matrixDocs (.obj [("Engineer", .arr [.str "coaching"])]) =
      ([⟨"Engineer", .arr [.str "coaching"]⟩], none) ∧
    matrixDocs (.arr [.obj [("job_title", .str "Engineer"),
        ("competencies", .arr [.str "coaching"])]]) =
      ([⟨"Engineer", .arr [.str "coaching"]⟩], none) := by
  refine ⟨?_, rfl, rfl⟩
  intro db st d replace
  cases db <;> rfl

/-- C7.  Store-unavailable atomicity: when the store handle is unset, every
ingest request fails with the 500 service-unavailable outcome and the handle
(and hence every collection) is exactly as before, for either value of
`replace`. -/
theorem ingest_unavailable_store_untouched (m st d : Json) (replace : Bool) :
    ingest none m st d replace = (none, .serviceUnavailable) :=
  rfl

/-- A matrix value that is neither a mapping nor a sequence produces no
MatrixEntry documents and no error (`src/main.py:104-115` falls through both
`isinstance` checks). -/
theorem matrixDocs_of_not_obj_not_arr (m : Json)
    (h1 : m.isObj = false) (h2 : m.isArr = false) : matrixDocs m = ([], none) := by
  cases m <;> simp_all [Json.isObj, Json.isArr, matrixDocs]

/-- C6 (amended).  A matrix field that is neither a mapping nor a sequence
(a string, number, boolean or null) is silently ignored: no MatrixEntry is
created, no error is raised, and the whole ingest behaves as if the matrix
were `{}`.  A sequence with a non-object element, however, raises
`AttributeError` — see the counterexample for the claim as stated. -/
theorem ingest_ignores_scalar_matrix :
    (∀ m : Json, m.isObj = false → m.isArr = false → matrixDocs m = ([], none)) ∧
    (∀ (m st d : Json) (s : Store) (replace : Bool),
      m.isObj = false → m.isArr = false →
      ingest (some s) m st d replace = ingest (some s) (.obj []) st d replace) := by
  refine ⟨matrixDocs_of_not_obj_not_arr, ?_⟩
  intro m st d s replace h1 h2
  have h : matrixDocs m = matrixDocs (.obj []) := by
    rw [matrixDocs_of_not_obj_not_arr m h1 h2]
    rfl
  have hd : ingestDocs m st d = ingestDocs (.obj []) st d := by
    unfold ingestDocs
    rw [h]
  unfold ingest
  rw [hd]

/-- Witness for C6 (amended): a numeric matrix field is ignored and the
ingest equals an ingest of an empty mapping. -/
theorem ingest_ignores_scalar_matrix_witness :
    matrixDocs (.num 3) = ([], none) ∧
    ingest (some Store.empty) (.num 3) (.obj []) (.obj []) false =
      ingest (some Store.empty) (.obj []) (.obj []) (.obj []) false :=
  ⟨ingest_ignores_scalar_matrix.1 (.num 3) rfl rfl,
   ingest_ignores_scalar_matrix.2 (.num 3) (.obj []) (.obj []) Store.empty false rfl rfl⟩

/-- Counterexample to C6 as stated: a bare list of strings in the matrix
field is a sequence of non-objects, so `entry.get(...)` raises
`AttributeError` (HTTP 500) instead of returning the success acknowledgment;
no MatrixEntry is created. -/
theorem ingest_list_of_strings_raises :
    ingest (some Store.empty) (.arr [.str "hello"]) (.obj []) (.obj []) true =
      (some ⟨[], [], []⟩, .internalError .attributeError) :=
  rfl

/-- Counterexample to C4 as stated: standard value `"advanced"` and values
key `"Advanced"` differ only in letter case, yet the lookup misses and
`standard_definition` is null — only the standard value is lowercased, the
values keys are not. -/
theorem standard_value_case_counterexample :
    pyLower "advanced" = pyLower "Advanced" ∧
    get_competencies (some caseStoreA) "Dev" (some "Senior") =
      .ok ⟨"Dev", some "Senior",
        [⟨.str "coaching", .str "Coaching", .str "advanced", .null, .null⟩]⟩ :=
  ⟨rfl, rfl⟩

/-- C4 (amended).  The `standard_definition` lookup key is the lowercased
stringified standard value, compared against the `values` keys exactly: a
standard `"Advanced"` matches a values key `"advanced"`, the lookup result is
the values entry at the lowercased standard, and two standard values
differing only in case look up identically — but an uppercase values key is
never matched. -/
theorem standard_value_lookup_lowercases_standard :
    get_competencies (some caseStoreB) "Dev" (some "Senior") =
      .ok ⟨"Dev", some "Senior",
        [⟨.str "coaching", .str "Coaching", .str "Advanced", .null,
          .str "Runs mentoring programs"⟩]⟩ ∧
    (∀ (vkvs : List (String × Json)) (sv : String),
      pyGet (.obj vkvs) (.str (pyLower (pyStr (.str sv)))) = .ok (dGet vkvs (pyLower sv))) ∧
    (∀ (vkvs : List (String × Json)) (s1 s2 : String), pyLower s1 = pyLower s2 →
      pyGet (.obj vkvs) (.str (pyLower (pyStr (.str s1)))) =
        pyGet (.obj vkvs) (.str (pyLower (pyStr (.str s2))))) := by
  refine ⟨rfl, fun vkvs sv => rfl, fun vkvs s1 s2 h => ?_⟩
  show pyGet (.obj vkvs) (.str (pyLower s1)) = pyGet (.obj vkvs) (.str (pyLower s2))
  rw [h]

/-- Witness for C4 (amended): two concrete standard values differing only in
case produce the same lookup. -/
theorem standard_value_lookup_lowercases_standard_witness :
    pyGet (.obj [("advanced", .str "x")]) (.str (pyLower (pyStr (.str "ADVANCED")))) =
      pyGet (.obj [("advanced", .str "x")]) (.str (pyLower (pyStr (.str "Advanced")))) :=
  standard_value_lookup_lowercases_standard.2.2 [("advanced", .str "x")] "ADVANCED" "Advanced" rfl

/-- With an empty level mapping, an emitted row always carries a null
standard and a null standard definition (`src/main.py:223-229`). -/
theorem finishRow_empty_std (dm : List (Json × DefInfo)) (key label : Json) (row : Row)
    (h : finishRow (.obj []) dm key label = .ok (some row)) :
    row.standard = .null ∧ row.standard_definition = .null := by
  unfold finishRow at h
  by_cases hk : pyTruthy key = true
  · cases key <;> simp_all [pyGet, dGet, jLookup, Json.isNull] <;> (subst h; exact ⟨rfl, rfl⟩)
  · simp [hk] at h

/-- With an empty level mapping, any resolved (non-skipped) competency row
has a null standard and a null standard definition. -/
theorem resolveComp_empty_std (dm : List (Json × DefInfo)) (c : Json) (row : Row)
    (h : resolveComp (.obj []) dm c = .ok (some row)) :
    row.standard = .null ∧ row.standard_definition = .null := by
  cases c with
  | str s =>
    unfold resolveComp at h
    exact finishRow_empty_std dm _ _ row h
  | obj kvs =>
    simp only [resolveComp] at h
    split at h
    · exact Except.noConfusion h
    · exact finishRow_empty_std dm _ _ row h
  | null => exact Except.noConfusion h
  | bool b => exact Except.noConfusion h
  | num n => exact Except.noConfusion h
  | arr xs => exact Except.noConfusion h

/-- With an empty level mapping, every row of a successful row-building loop
has a null standard and a null standard definition. -/
theorem itemsOf_empty_std (dm : List (Json × DefInfo)) :
    ∀ (cs : List Json) (items : List Row),
      itemsOf (.obj []) dm cs = .ok items →
      ∀ row ∈ items, row.standard = .null ∧ row.standard_definition = .null := by
  intro cs
  induction cs with
  | nil =>
    intro items h row hrow
    simp only [itemsOf] at h
    cases h
    simp at hrow
  | cons c cs ih =>
    intro items h row hrow
    unfold itemsOf at h
    split at h
    · exact Except.noConfusion h
    · rename_i r? hr
      split at h
      · exact Except.noConfusion h
      · rename_i rest hrest
        cases h
        cases r? with
        | none => exact ih rest hrest row hrow
        | some r =>
          rcases List.mem_cons.mp hrow with hEq | hMem
          · subst hEq
            exact resolveComp_empty_std dm c row hr
          · exact ih rest hrest row hMem

/-- Inversion of a successful competencies query: the matrix entry was
found, its competencies iterated, and the items came from the row-building
loop; the response echoes the normalized title and the raw level. -/
theorem get_competencies_ok_inv (s : Store) (title : String) (level : Option String)
    (r : QueryResult) (h : get_competencies (some s) title level = .ok r) :
    ∃ me cs, s.matrix.find? (fun e => e.job_title = _normalize_title title) = some me ∧
      pyIterate me.competencies = .ok cs ∧
      itemsOf (levelMappingOf s (_normalize_title title) level) (defsMapOf s.defs) cs =
        .ok r.items ∧
      r.title = _normalize_title title ∧ r.level = level := by
  simp only [get_competencies] at h
  split at h
  · exact Except.noConfusion h
  · rename_i items hq
    cases h
    simp only [queryItems] at hq
    split at hq
    · exact Except.noConfusion hq
    · rename_i me hme
      split at hq
      · exact Except.noConfusion hq
      · rename_i cs hcs
        split at hq
        · exact Except.noConfusion hq
        · rename_i items' hitems
          cases hq
          exact ⟨me, cs, hme, hcs, hitems, rfl, rfl⟩

/-- C5 (amended).  A query whose normalized title has no MatrixEntry fails
with NotFound, whatever the level.  For an existing title queried without a
level, or with a level for which no StandardRecord matches, any successful
response has `standard` and `standard_definition` null in every item; the
query is not guaranteed to succeed, since malformed competency references
raise a Python error instead (see the counterexample for the claim as
stated). -/
theorem query_notfound_and_null_standards :
    (∀ (s : Store) (title : String) (level : Option String),
      s.matrix.find? (fun e => e.job_title = _normalize_title title) = none →
      get_competencies (some s) title level = .error .notFound) ∧
    (∀ (s : Store) (title : String) (r : QueryResult),
      get_competencies (some s) title none = .ok r →
      ∀ row ∈ r.items, row.standard = .null ∧ row.standard_definition = .null) ∧
    (∀ (s : Store) (title : String) (l : String) (r : QueryResult),
      s.standards.find? (fun rec =>
        rec.job_title = _normalize_title title && rec.level = l) = none →
      get_competencies (some s) title (some l) = .ok r →
      ∀ row ∈ r.items, row.standard = .null ∧ row.standard_definition = .null) := by
  refine ⟨?_, ?_, ?_⟩
  · intro s title level hfind
    simp [get_competencies, queryItems, hfind]
  · intro s title r h row hrow
    obtain ⟨me, cs, hme, hcs, hitems, _, _⟩ := get_competencies_ok_inv s title none r h
    exact itemsOf_empty_std _ cs r.items hitems row hrow
  · intro s title l r hfind h row hrow
    obtain ⟨me, cs, hme, hcs, hitems, _, _⟩ := get_competencies_ok_inv s title (some l) r h
    have hlm : levelMappingOf s (_normalize_title title) (some l) = .obj [] := by
      unfold levelMappingOf
      by_cases hl : l = ""
      · simp [hl]
      · simp [hl, hfind]
    rw [hlm] at hitems
    exact itemsOf_empty_std _ cs r.items hitems row hrow

/-- Counterexample to C5 as stated: for this reachable store, the query for
the existing title `Dev` with no level does not succeed with null standards —
iterating the integer competencies value raises `TypeError`, an HTTP 500. -/
theorem query_no_level_counterexample :
    ingest (some Store.empty)
        (.arr [.obj [("job_title", .str "Dev"), ("competencies", .num 5)]])
        (.obj []) (.obj []) true =
      (some badCompsStore, .ok) ∧
    get_competencies (some badCompsStore) "Dev" none = .error (.pyErr .typeError) :=
  ⟨rfl, rfl⟩

/-- Witness for C5 (amended): a missing title gives NotFound on a concrete
store, and a concrete no-level query's row has null standard fields. -/
theorem query_notfound_and_null_standards_witness :
    get_competencies (some Store.empty) "Ghost" none = .error .notFound ∧
    ((⟨.str "coaching", .str "Coaching", .null, .null, .null⟩ : Row).standard = .null ∧
      (⟨.str "coaching", .str "Coaching", .null, .null, .null⟩ : Row).standard_definition =
        .null) :=
  ⟨query_notfound_and_null_standards.1 Store.empty "Ghost" none rfl,
   query_notfound_and_null_standards.2.1 witnessStore "Dev"
     ⟨"Dev", none, [⟨.str "coaching", .str "Coaching", .null, .null, .null⟩]⟩ rfl
     ⟨.str "coaching", .str "Coaching", .null, .null, .null⟩
     (List.mem_singleton.mpr rfl)⟩

/-- The row-building loop is an order-preserving `filterMap` of per-reference
resolution: one row per reference the resolution keeps, none for a skipped
reference. -/
theorem itemsOf_ok_filterMap (lm : Json) (dm : List (Json × DefInfo)) :
    ∀ (cs : List Json) (items : List Row),
      itemsOf lm dm cs = .ok items →
      items = cs.filterMap (fun c => (resolveComp lm dm c).toOption.bind id) := by
  intro cs
  induction cs with
  | nil =>
    intro items h
    cases h
    rfl
  | cons c cs ih =>
    intro items h
    unfold itemsOf at h
    split at h
    · exact Except.noConfusion h
    · rename_i r? hr
      split at h
      · exact Except.noConfusion h
      · rename_i rest hrest
        cases h
        rw [List.filterMap_cons, hr]
        cases r? with
        | none => simpa [Except.toOption] using ih rest hrest
        | some r => simpa [Except.toOption] using ih rest hrest

/-- A bare-string competency reference that survives resolution yields a row
keyed by that string whose label is the underscore-to-space, title-cased
transform of it (`src/main.py:215-217`). -/
theorem resolveComp_str_label (lm : Json) (dm : List (Json × DefInfo)) (s : String)
    (r? : Option Row) (hs : s ≠ "") (h : resolveComp lm dm (.str s) = .ok r?) :
    ∃ row, r? = some row ∧ row.key = .str s ∧
      row.label = .str (pyTitle (replaceUnderscores s)) := by
  simp only [resolveComp, finishRow] at h
  split at h
  · split at h
    · exact Except.noConfusion h
    · split at h
      · cases h
        exact ⟨_, rfl, rfl, rfl⟩
      · split at h
        · exact Except.noConfusion h
        · cases h
          exact ⟨_, rfl, rfl, rfl⟩
  · rename_i hcond
    exact absurd (by simp [pyTruthy, hs] : pyTruthy (Json.str s) = true) hcond

/-- The label fallback never raises when the resolved key is null
(`src/main.py:220`): the conditional short-circuits to `None`. -/
theorem labelFor_null_ok (kvs : List (String × Json)) :
    ∃ l, labelFor kvs .null = .ok l := by
  unfold labelFor
  split
  · exact ⟨_, rfl⟩
  · split
    · exact ⟨_, rfl⟩
    · exact ⟨.null, by simp [pyTruthy]⟩

/-- An object reference with none of `key`/`id`/`name` is skipped silently
(`src/main.py:219-222`), whatever its other fields and whatever the level
mapping and definitions. -/
theorem resolveComp_keyless_obj (lm : Json) (dm : List (Json × DefInfo))
    (kvs : List (String × Json)) (h1 : jLookup kvs "key" = none)
    (h2 : jLookup kvs "id" = none) (h3 : jLookup kvs "name" = none) :
    resolveComp lm dm (.obj kvs) = .ok none := by
  have hk : pyOr (dGet kvs "key") (pyOr (dGet kvs "id") (dGet kvs "name")) = .null := by
    simp [dGet, h1, h2, h3, pyOr, pyTruthy]
  simp only [resolveComp]
  rw [hk]
  obtain ⟨l, hlab⟩ := labelFor_null_ok kvs
  rw [hlab]
  simp [finishRow, pyTruthy]

/-- C8.  For any successful query, the items are the order-preserving
`filterMap` of per-reference resolution over the MatrixEntry's competency
list — exactly one row per reference that resolves to a key, in the original
order; a bare-string reference keeps its string as key and derives the label
by replacing underscores with spaces and title-casing (concretely,
`team_coaching` becomes `Team Coaching`); an object reference with none of
`key`/`id`/`name` is dropped with no error. -/
theorem query_items_order_and_drops :
    (∀ (s : Store) (title : String) (level : Option String) (r : QueryResult),
      get_competencies (some s) title level = .ok r →
      ∃ me cs, s.matrix.find? (fun e => e.job_title = _normalize_title title) = some me ∧
        pyIterate me.competencies = .ok cs ∧
        r.items = cs.filterMap (fun c =>
          (resolveComp (levelMappingOf s (_normalize_title title) level)
            (defsMapOf s.defs) c).toOption.bind id)) ∧
    (∀ (lm : Json) (dm : List (Json × DefInfo)) (s : String) (r? : Option Row),
      s ≠ "" → resolveComp lm dm (.str s) = .ok r? →
      ∃ row, r? = some row ∧ row.key = .str s ∧
        row.label = .str (pyTitle (replaceUnderscores s))) ∧
    (∀ (lm : Json) (dm : List (Json × DefInfo)) (kvs : List (String × Json)),
      jLookup kvs "key" = none → jLookup kvs "id" = none → jLookup kvs "name" = none →
      resolveComp lm dm (.obj kvs) = .ok none) ∧
    pyTitle (replaceUnderscores "team_coaching") = "Team Coaching" := by
  refine ⟨?_, resolveComp_str_label, resolveComp_keyless_obj, rfl⟩
  intro s title level r h
  obtain ⟨me, cs, hme, hcs, hitems, _, _⟩ := get_competencies_ok_inv s title level r h
  exact ⟨me, cs, hme, hcs, itemsOf_ok_filterMap _ _ cs r.items hitems⟩

/-- Witness for C8: concrete instances of the drop rule and the bare-string
label rule. -/
theorem query_items_order_and_drops_witness :
    resolveComp (.obj []) [] (.obj [("label", .str "X")]) = .ok none ∧
    (∃ row,
      (some (⟨.str "team_coaching", .str "Team Coaching", .null, .null, .null⟩ : Row)) =
        some row ∧
      row.key = .str "team_coaching" ∧
      row.label = .str (pyTitle (replaceUnderscores "team_coaching"))) :=
  ⟨query_items_order_and_drops.2.2.1 (.obj []) [] [("label", .str "X")] rfl rfl rfl,
   query_items_order_and_drops.2.1 (.obj []) [] "team_coaching"
     (some ⟨.str "team_coaching", .str "Team Coaching", .null, .null, .null⟩)
     (by decide) rfl⟩

/-- C10.  An empty-string level is falsy, so the standards lookup is skipped
exactly as when no level is supplied: the response is identical to the
no-level response except that it echoes the level as the empty string. -/
theorem empty_level_same_as_no_level (s : Store) (title : String) :
    get_competencies (some s) title (some "") =
      Except.map (fun r => ⟨r.title, some "", r.items⟩)
        (get_competencies (some s) title none) := by
  simp only [get_competencies]
  have hq : queryItems s (_normalize_title title) (some "") =
      queryItems s (_normalize_title title) none := rfl
  rw [hq]
  cases queryItems s (_normalize_title title) none with
  | error e => rfl
  | ok items => rfl

/-! ## Idempotence of title normalization (C9) -/

/-- Every word produced by the splitting loop is nonempty and whitespace-free,
provided the accumulated partial word is whitespace-free. -/
theorem splitWordsAux_words_good :
    ∀ (l acc : List Char), (∀ c ∈ acc, pyIsSpace c = false) →
      ∀ w ∈ splitWordsAux l acc, w ≠ [] ∧ ∀ c ∈ w, pyIsSpace c = false := by
  intro l
  induction l with
  | nil =>
    intro acc hacc w hw
    simp only [splitWordsAux] at hw
    cases acc with
    | nil => simp at hw
    | cons a as =>
      rw [List.isEmpty_cons] at hw
      simp only [Bool.false_eq_true, if_false] at hw
      cases List.mem_singleton.mp hw
      refine ⟨by simp, ?_⟩
      intro c hc
      exact hacc c (List.mem_reverse.mp hc)
  | cons c cs ih =>
    intro acc hacc w hw
    simp only [splitWordsAux] at hw
    by_cases hsp : pyIsSpace c = true
    · rw [if_pos hsp] at hw
      cases acc with
      | nil =>
        simp only [List.isEmpty_nil, if_true] at hw
        exact ih [] (by simp) w hw
      | cons a as =>
        simp only [List.isEmpty_cons] at hw
        simp only [if_neg (by simp : ¬(false = true))] at hw
        rcases List.mem_cons.mp hw with hEq | hMem
        · subst hEq
          refine ⟨by simp, ?_⟩
          intro x hx
          exact hacc x (List.mem_reverse.mp hx)
        · exact ih [] (by simp) w hMem
    · rw [if_neg hsp] at hw
      refine ih (c :: acc) ?_ w hw
      intro x hx
      rcases List.mem_cons.mp hx with hEq | hMem
      · subst hEq
        exact Bool.eq_false_iff.mpr hsp
      · exact hacc x hMem

/-- Feeding a whitespace-free word into the splitting loop accumulates it. -/
theorem splitWordsAux_append_word :
    ∀ (w r acc : List Char), (∀ c ∈ w, pyIsSpace c = false) →
      splitWordsAux (w ++ r) acc = splitWordsAux r (w.reverse ++ acc) := by
  intro w
  induction w with
  | nil =>
    intro r acc _
    simp
  | cons c w' ih =>
    intro r acc h
    have hc : pyIsSpace c = false := h c (by simp)
    show splitWordsAux (c :: (w' ++ r)) acc = _
    simp only [splitWordsAux]
    rw [if_neg (by simp [hc])]
    rw [ih r (c :: acc) (fun x hx => h x (by simp [hx]))]
    congr 1
    simp

/-- Splitting the space-joined rendering of nonempty, whitespace-free words
recovers exactly those words. -/
theorem splitWords_joinWords :
    ∀ ws : List (List Char),
      (∀ w ∈ ws, w ≠ [] ∧ ∀ c ∈ w, pyIsSpace c = false) →
      splitWords (joinWords ws) = ws := by
  intro ws
  induction ws with
  | nil => intro _; rfl
  | cons w ws' ih =>
    intro h
    have hw := h w (by simp)
    cases ws' with
    | nil =>
      show splitWords (joinWords [w]) = [w]
      have hjw : joinWords [w] = w := rfl
      unfold splitWords
      rw [hjw]
      have happ := splitWordsAux_append_word w [] [] hw.2
      rw [List.append_nil] at happ
      rw [happ]
      simp only [splitWordsAux, List.append_nil]
      cases hrev : w.reverse with
      | nil => exact absurd (List.reverse_eq_nil_iff.mp hrev) hw.1
      | cons a as => simp [← hrev, hw.1]
    | cons v vs =>
      have hjw : joinWords (w :: v :: vs) = w ++ ' ' :: joinWords (v :: vs) := rfl
      unfold splitWords
      rw [hjw, splitWordsAux_append_word w _ [] hw.2, List.append_nil]
      simp only [splitWordsAux]
      rw [if_pos (by simp [pyIsSpace] : pyIsSpace ' ' = true)]
      cases hrev : w.reverse with
      | nil => exact absurd (List.reverse_eq_nil_iff.mp hrev) hw.1
      | cons a as =>
        simp only [List.isEmpty_cons, ← hrev]
        rw [if_neg (by simp [hrev])]
        rw [List.reverse_reverse]
        have := ih (fun x hx => h x (by simp [hx]))
        unfold splitWords at this
        rw [this]

/-- The space-joined rendering of good words, read backwards, starts with a
non-whitespace character. -/
theorem joinWords_reverse_head :
    ∀ ws : List (List Char), ws ≠ [] →
      (∀ w ∈ ws, w ≠ [] ∧ ∀ c ∈ w, pyIsSpace c = false) →
      ∃ c cs, (joinWords ws).reverse = c :: cs ∧ pyIsSpace c = false := by
  intro ws
  induction ws with
  | nil => intro h; exact absurd rfl h
  | cons w ws' ih =>
    intro _ h
    have hw := h w (by simp)
    cases ws' with
    | nil =>
      cases hrev : w.reverse with
      | nil => exact absurd (List.reverse_eq_nil_iff.mp hrev) hw.1
      | cons c cs =>
        refine ⟨c, cs, hrev, ?_⟩
        have hc : c ∈ w.reverse := by
          rw [hrev]
          simp
        exact hw.2 c (List.mem_reverse.mp hc)
    | cons v vs =>
      obtain ⟨c, cs, hrev, hc⟩ := ih (by simp) (fun x hx => h x (by simp [hx]))
      refine ⟨c, cs ++ ' ' :: w.reverse, ?_, hc⟩
      have hjw : joinWords (w :: v :: vs) = w ++ ' ' :: joinWords (v :: vs) := rfl
      rw [hjw, List.reverse_append, List.reverse_cons, hrev]
      simp

/-- Stripping the space-joined rendering of good words changes nothing:
there is no leading or trailing whitespace to remove. -/
theorem pyStrip_joinWords :
    ∀ ws : List (List Char),
      (∀ w ∈ ws, w ≠ [] ∧ ∀ c ∈ w, pyIsSpace c = false) →
      pyStrip (joinWords ws) = joinWords ws := by
  intro ws h
  cases ws with
  | nil => rfl
  | cons w ws' =>
    have hw := h w (by simp)
    have hhead : ∃ d ds, joinWords (w :: ws') = d :: ds ∧ pyIsSpace d = false := by
      obtain ⟨c, w', hwc⟩ : ∃ c w', w = c :: w' := by
        cases w with
        | nil => exact absurd rfl hw.1
        | cons c w' => exact ⟨c, w', rfl⟩
      have hc : pyIsSpace c = false := hw.2 c (by simp [hwc])
      cases ws' with
      | nil => exact ⟨c, w', by simp [joinWords, hwc], hc⟩
      | cons v vs =>
        exact ⟨c, w' ++ ' ' :: joinWords (v :: vs), by simp [joinWords, hwc], hc⟩
    obtain ⟨d, ds, hEq, hdns⟩ := hhead
    have hdrop : (joinWords (w :: ws')).dropWhile pyIsSpace = joinWords (w :: ws') := by
      rw [hEq, List.dropWhile_cons, if_neg (by simp [hdns])]
    obtain ⟨c, cs, hrev, hcns⟩ := joinWords_reverse_head (w :: ws') (by simp) h
    unfold pyStrip
    rw [hdrop, hrev, List.dropWhile_cons, if_neg (by simp [hcns]), ← hrev,
      List.reverse_reverse]

/-- C9.  Title normalization is idempotent and whitespace-insensitive:
normalizing a normalized title is a no-op, the two spec titles normalize to
the same key, and both the competencies query and a mapping-shape ingest
treat the two titles identically. -/
theorem title_normalization_idempotent :
    (∀ t : String, _normalize_title (_normalize_title t) = _normalize_title t) ∧
    _normalize_title "  Senior   Engineer " = _normalize_title "Senior Engineer" ∧
    (∀ (db : Option Store) (level : Option String),
      get_competencies db "  Senior   Engineer " level =
        get_competencies db "Senior Engineer" level) ∧
    (∀ (comps st d : Json) (db : Option Store) (replace : Bool),
      ingest db (.obj [("  Senior   Engineer ", comps)]) st d replace =
        ingest db (.obj [("Senior Engineer", comps)]) st d replace) := by
  refine ⟨?_, rfl, ?_, ?_⟩
  · intro t
    have hgood := splitWordsAux_words_good t.data [] (by simp)
    have hstrip := pyStrip_joinWords (splitWords t.data) hgood
    calc _normalize_title (_normalize_title t)
        = ⟨pyStrip (joinWords (splitWords (pyStrip (joinWords (splitWords t.data)))))⟩ := rfl
      _ = ⟨pyStrip (joinWords (splitWords (joinWords (splitWords t.data))))⟩ := by
          rw [hstrip]
      _ = ⟨pyStrip (joinWords (splitWords t.data))⟩ := by
          rw [splitWords_joinWords (splitWords t.data) hgood]
      _ = _normalize_title t := rfl
  · intro db level
    cases db <;> rfl
  · intro comps st d db replace
    cases db <;> rfl

end CompetencyMatrix
